import Mathlib

/-!
Shallow embedding of the `claude-saga` repository, covering the two source
files `src/examples/simple_command_validator.py` and `src/claude-worktree.py`.

The `claude_saga` package itself (SagaRuntime, BaseSagaState, the effect
constructors and the `validate_input_saga` / `parse_json_saga` steps) is
imported by the validator but its source is not part of the repository
snapshot, so those pieces are modelled from the specification (they carry a
`Modelled from the spec:` doc comment).  Everything else is translated
directly from the Python source.
-/

namespace CommandValidator

/-- Python `re.search` is abstracted as an arbitrary boolean match relation
`search pattern command`; every theorem about the validator is proved for an
arbitrary such relation, so nothing depends on the semantics of the concrete
regular expressions. -/
abbrev SearchFn := String → String → Bool

/-- Model of the parsed value of `tool_input` (a JSON object); the validator
only reads `tool_input.get("command", "")`
(`simple_command_validator.py:88`). -/
structure ToolInput where
  command : Option String := none
deriving DecidableEq

/-- Model of one parsed JSON hook-input object.  `isEmpty` records Python
dict falsiness (`{}` is falsy), `tool_name` models `.get("tool_name", "")`
presence and `tool_input` models `.get("tool_input", {})` presence. -/
structure HookInput where
  isEmpty : Bool := false
  tool_name : Option String := none
  tool_input : Option ToolInput := none
deriving DecidableEq

/-- Modelled from the spec: the process's standard input as seen by the
(missing) `validate_input_saga` / `parse_json_saga` steps — it is either
absent, present but not valid JSON, or one valid JSON object. -/
inductive Stdin where
  | empty : Stdin
  | invalidJson : Stdin
  | valid : HookInput → Stdin
deriving DecidableEq

/-- The pipeline state for the validator.  The fields `tool_name`, `command`,
`validation_rules`, `issues` come from the `ValidatorState` dataclass
(`simple_command_validator.py:39-52`, with `__post_init__` initialising the
two lists to `[]`).  The fields `raw`, `continue_`, `stopReason` and
`systemMessage` are modelled from the spec's `BaseSagaState` ("a boolean
continuation flag, a human-readable system message", failure reason), since
`claude_saga` is not in the repository.  `issues` is an `Option` because the
runtime stores an absent result (`None`) when the underlying `Call` raised. -/
structure ValidatorState where
  raw : Stdin
  continue_ : Bool := true
  stopReason : String := ""
  systemMessage : String := ""
  input_data : Option HookInput := none
  tool_name : String := ""
  command : String := ""
  validation_rules : List (String × String) := []
  issues : Option (List String) := some []
deriving DecidableEq

/-- A saga step as a resumable effect program.  Constructors mirror the
effect vocabulary `Call / Put / Select / Log / Stop / Complete` yielded by the
generators in `simple_command_validator.py`; `done` is normal generator
exhaustion.  The only `Call` in the program applies `validate_command_effect`
to a command and a rule list, so the payload is specialised to those
arguments.  `stop` and `complete` keep the continuation that the Python
generator body would expose after the `yield`; the runtime never resumes it. -/
inductive Prog where
  | done : Prog
  | select : (ValidatorState → Prog) → Prog
  | put : (ValidatorState → ValidatorState) → Prog → Prog
  | call : String → List (String × String) → (Option (List String) → Prog) → Prog
  | log : String → String → Prog → Prog
  | stop : String → Prog → Prog
  | complete : String → Prog → Prog

/-- One interpreted effect, as recorded in the runtime trace. -/
inductive Item where
  | select : Item
  | put : Item
  | call : String → List (String × String) → Item
  | log : String → String → Item
  | stop : String → Item
  | complete : String → Item
deriving DecidableEq

/-- Terminal status of running one saga (or a pipeline). -/
inductive Outcome where
  | finished : Outcome
  | stopped : String → Outcome
  | completed : String → Outcome
deriving DecidableEq

/-- `validate_command_effect` (`simple_command_validator.py:55-60`): collect
the message of every rule whose pattern matches the command, in rule order. -/
def validate_command_effect (search : SearchFn) (command : String)
    (rules : List (String × String)) : List String :=
  match rules with
  | [] => []
  | (pattern, message) :: rest =>
      if search pattern command then
        message :: validate_command_effect search command rest
      else
        validate_command_effect search command rest

/-- Modelled from the spec: the `SagaRuntime` interpreter (not under `src/`).
Per §4.2: `Select` returns the current state, `Put` merges a partial state,
`Call` delegates to the underlying operation — catching any raised condition,
logging it, and handing the step an absent result — `Log` only records,
`Stop`/Abort marks the state failed with the reason and halts immediately,
`Complete` halts treating the state as a successful terminal result.  The
parameter `exec` is the underlying operation of the single `Call` in this
program, returning `.error` when the Python function would raise. -/
def runProg (exec : String → List (String × String) → Except String (List String)) :
    ValidatorState → Prog → ValidatorState × List Item × Outcome
  | s, .done => (s, [], .finished)
  | s, .select k =>
      let r := runProg exec s (k s)
      (r.1, .select :: r.2.1, r.2.2)
  | s, .put f k =>
      let r := runProg exec (f s) k
      (r.1, .put :: r.2.1, r.2.2)
  | s, .call c rules k =>
      match exec c rules with
      | .ok res =>
          let r := runProg exec s (k (some res))
          (r.1, .call c rules :: r.2.1, r.2.2)
      | .error e =>
          let r := runProg exec s (k none)
          (r.1, .call c rules :: .log "error" e :: r.2.1, r.2.2)
  | s, .log lvl msg k =>
      let r := runProg exec s k
      (r.1, .log lvl msg :: r.2.1, r.2.2)
  | s, .stop reason _ =>
      ({ s with continue_ := false, stopReason := reason }, [.stop reason], .stopped reason)
  | s, .complete msg _ =>
      ({ s with systemMessage := msg }, [.complete msg], .completed msg)

/-- Modelled from the spec: the runtime drives the pipeline's steps strictly
in declaration order, threading the state, and halts at the first step whose
run ends in `Stop` or `Complete`. -/
def runSteps (exec : String → List (String × String) → Except String (List String)) :
    ValidatorState → List Prog → ValidatorState × List Item × Outcome
  | s, [] => (s, [], .finished)
  | s, p :: ps =>
      match runProg exec s p with
      | (s', t, .finished) =>
          let r := runSteps exec s' ps
          (r.1, t ++ r.2.1, r.2.2)
      | (s', t, .stopped reason) => (s', t, .stopped reason)
      | (s', t, .completed msg) => (s', t, .completed msg)

/-- Python truthiness of the `issues` attribute in `output_results_saga`:
`None` and `[]` are falsy, a non-empty list is truthy. -/
def truthy : Option (List String) → Bool
  | none => false
  | some l => !l.isEmpty

/-- Python truthiness of `state.input_data` in `extract_tool_data_saga`
(`if not state.input_data`): `None` and the empty dict are falsy. -/
def inputFalsy : Option HookInput → Bool
  | none => true
  | some h => h.isEmpty

/-- The fixed rule list built by `setup_validation_rules_saga`
(`simple_command_validator.py:63-74`), pattern strings verbatim. -/
def validation_rules : List (String × String) :=
  [("\\bgrep\\b(?!.*\\|)",
    "Use 'rg' (ripgrep) instead of 'grep' for better performance and features"),
   ("\\bfind\\s+\\S+\\s+-name\\b",
    "Use 'rg --files | rg pattern' or 'rg --files -g pattern' instead of 'find -name' for better performance")]

/-- Modelled from the spec: `validate_input_saga` (imported from the missing
`claude_saga` package).  Per §7, missing input is a hard input error
("InputError (missing/invalid JSON, missing required field) — fatal"), so the
step aborts when standard input is absent. -/
def validate_input_saga : Prog :=
  .select fun state =>
    if state.raw = Stdin.empty then .stop "No input provided" .done else .done

/-- Modelled from the spec: `parse_json_saga` (imported from the missing
`claude_saga` package).  It parses standard input as one JSON object into
`input_data`; invalid JSON is a hard input error (Stop). -/
def parse_json_saga : Prog :=
  .select fun state =>
    match state.raw with
    | Stdin.valid h => .put (fun s => { s with input_data := some h }) .done
    | _ => .stop "Invalid JSON input" .done

/-- `setup_validation_rules_saga` (`simple_command_validator.py:63-76`). -/
def setup_validation_rules_saga : Prog :=
  .put (fun s => { s with validation_rules := validation_rules }) .done

/-- `extract_tool_data_saga` (`simple_command_validator.py:79-97`).  The
`yield Stop` keeps the rest of the generator body as its continuation, as in
the source (the runtime never resumes it). -/
def extract_tool_data_saga : Prog :=
  .select fun state =>
    let tool_name := ((state.input_data.map HookInput.tool_name).getD none).getD ""
    let tool_input := (state.input_data.map HookInput.tool_input).getD none
    let command := ((tool_input.getD {}).command).getD ""
    let body : Prog :=
      .put (fun s => { s with tool_name := tool_name, command := command })
        (if tool_name ≠ "Bash" ∨ command = "" then
          .complete "Not a Bash command - skipping validation" .done
        else .done)
    if inputFalsy state.input_data then .stop "No input data" body else body

/-- `validate_command_saga` (`simple_command_validator.py:100-107`): yields a
`Call` of `validate_command_effect` and stores whatever the runtime hands
back (possibly an absent result) into `issues`. -/
def validate_command_saga : Prog :=
  .select fun state =>
    .call state.command state.validation_rules fun issues =>
      .put (fun s => { s with issues := issues }) .done

/-- The `Log` loop of `output_results_saga`: one `error`-level line per issue
(`f"â€¢ {message}"`, the bullet bytes as they appear in the source). -/
def logIssues : List String → Prog → Prog
  | [], k => k
  | m :: ms, k => .log "error" ("â€¢ " ++ m) (logIssues ms k)

/-- `output_results_saga` (`simple_command_validator.py:110-123`). -/
def output_results_saga : Prog :=
  .select fun state =>
    if truthy state.issues then
      logIssues (state.issues.getD []) (.stop "Validation issues found" .done)
    else
      .complete "Command validation passed" .done

/-- `main_saga` (`simple_command_validator.py:126-132`): the pipeline's steps
in declaration order. -/
def main_saga : List Prog :=
  [validate_input_saga, parse_json_saga, setup_validation_rules_saga,
   extract_tool_data_saga, validate_command_saga, output_results_saga]

/-- The real underlying operation of the single `Call`: the pure function
`validate_command_effect`, which always returns. -/
def realExec (search : SearchFn) :
    String → List (String × String) → Except String (List String) :=
  fun c rules => .ok (validate_command_effect search c rules)

/-- Initial state: `ValidatorState()` with the process's standard input. -/
def initState (stdin : Stdin) : ValidatorState := { raw := stdin }

/-- `main` (`simple_command_validator.py:134-144`) up to the exit decision:
run the pipeline from the empty state. -/
def runMain (search : SearchFn) (stdin : Stdin) :
    ValidatorState × List Item × Outcome :=
  runSteps (realExec search) (initState stdin) main_saga

/-- The exit code chosen by `main` (`simple_command_validator.py:141-144`):
`0` (allow) when the final state's continuation flag is true, else `2`
(block and surface stderr). -/
def exitCode (search : SearchFn) (stdin : Stdin) : Nat :=
  if (runMain search stdin).1.continue_ then 0 else 2

end CommandValidator

namespace ClaudeWorktree

/-- A JSON value as printed by the script (it only ever prints strings; the
`bool` constructor exists so that "contains a boolean field" is statable). -/
inductive JVal where
  | str : String → JVal
  | bool : Bool → JVal
deriving DecidableEq

/-- Standard input of `claude-worktree.py`: `json.loads(sys.stdin.read())`
either raises on invalid JSON or yields an object, of which only
`conversation_id` is read (`claude-worktree.py:27-30`). -/
inductive WtStdin where
  | invalidJson : WtStdin
  | valid : Option String → WtStdin
deriving DecidableEq

/-- The observable git/filesystem environment of one invocation:
whether `Repo(project_dir)` succeeds, the lines of `git worktree list`,
`repo.head.commit`, and — for the existing worktree — `is_dirty()` and
whether `untracked_files` is non-empty. -/
structure GitWorld where
  isRepo : Bool := true
  worktreeList : List String := []
  headCommit : String := ""
  wtDirty : Bool := false
  wtUntracked : Bool := false
deriving DecidableEq

/-- An external mutating/querying call issued by the script: a
`repo.git.worktree(...)` invocation with its raw argument list, a
`git.add(...)` invocation, an `index.commit(message)`, or the
`session_file.write_text(...)` that the source attempts (never reached). -/
inductive GitCmd where
  | worktree : List String → GitCmd
  | add : List String → GitCmd
  | indexCommit : String → GitCmd
  | writeSessionFile : String → GitCmd
deriving DecidableEq

/-- How the process ends: an uncaught Python exception (nothing printed), or
`print(json.dumps(...))` of one JSON object. -/
inductive WtResult where
  | crashed : String → WtResult
  | printed : List (String × JVal) → WtResult
deriving DecidableEq

/-- Split a character list at every occurrence of `sep` (the groups between
separators, in order). -/
def splitChars (sep : Char) : List Char → List (List Char)
  | [] => [[]]
  | c :: cs =>
      match splitChars sep cs with
      | [] => [[c]]
      | grp :: rest =>
          if c = sep then [] :: grp :: rest else (c :: grp) :: rest

/-- `Path(p).name`: the last `/`-separated component of the path. -/
def baseName (p : String) : String :=
  String.mk ((splitChars '/' p.data).getLastD [])

/-- Python's substring test `needle in haystack`: the characters of `needle`
occur contiguously inside the characters of `haystack`. -/
def strIn (needle haystack : String) : Bool :=
  decide (List.IsInfix needle.data haystack.data)

/-- The worktree path computed at `claude-worktree.py:34-35`:
`project_dir / f"{project_dir.name}-claude-{conversation_id}"`. -/
def sessionWorktreePath (cwd conversation_id : String) : String :=
  cwd ++ "/" ++ baseName cwd ++ "-claude-" ++ conversation_id

/-- The existence check of `claude-worktree.py:41-45`: scan the lines of
`git worktree list` for one containing the worktree path as a substring. -/
def worktreeExists (worktree_path : String) (listLines : List String) : Bool :=
  listLines.any fun line => strIn worktree_path line

/-- The output printed on the non-crashing paths
(`claude-worktree.py:73`): `{"decision": "approve"}`. -/
def approveJson : List (String × JVal) := [("decision", JVal.str "approve")]

/-- The commit message used for auto-committing leftover changes
(`claude-worktree.py:69`). -/
def autoCommitMsg : String :=
  "Claude: Auto-commit uncommitted changes from previous session"

/-- `main` of `claude-worktree.py:13-73`, as a function from standard input,
the current working directory and the git environment to the list of
external calls issued (in order) and the process outcome.  Notable source
behaviours preserved: a missing `conversation_id` defaults to `"default"`
(line 30); worktree creation passes `('add', path, '-b', branch, commit)`
(line 53); the following `session_file.write_text(...)` raises `NameError`
because `session_file` is never defined (line 56), so the creation path
never reaches the final `print`. -/
def main (stdin : WtStdin) (cwd : String) (w : GitWorld) : List GitCmd × WtResult :=
  match stdin with
  | .invalidJson => ([], .crashed "json.decoder.JSONDecodeError")
  | .valid cid =>
      let conversation_id := cid.getD "default"
      let worktree_path := sessionWorktreePath cwd conversation_id
      if w.isRepo = false then
        ([], .crashed "git.exc.InvalidGitRepositoryError")
      else if worktreeExists worktree_path w.worktreeList = false then
        -- lines 47-60: create the worktree, then crash on `session_file`
        ([GitCmd.worktree ["list"],
          GitCmd.worktree ["add", worktree_path, "-b",
            "claude/" ++ conversation_id, w.headCommit]],
         .crashed "NameError: name 'session_file' is not defined")
      else if w.wtDirty || w.wtUntracked then
        -- lines 62-69, 73: auto-commit leftovers, then approve
        ([GitCmd.worktree ["list"], GitCmd.add ["-A"],
          GitCmd.indexCommit autoCommitMsg],
         .printed approveJson)
      else
        -- lines 62-66, 73: clean worktree, just approve
        ([GitCmd.worktree ["list"]], .printed approveJson)

end ClaudeWorktree

namespace CommandValidator

/-- The specification's reading of `validate_command_effect`, written from
the claim's words: the messages of exactly those rules whose pattern matches
the command, kept in rule order. -/
def matchingMessages (search : SearchFn) (command : String)
    (rules : List (String × String)) : List String :=
  (rules.filter fun r => search r.1 command).map Prod.snd

/-- `validate_command_effect` agrees with the filter-then-project reading. -/
lemma vce_eq_matching (search : SearchFn) (command : String)
    (rules : List (String × String)) :
    validate_command_effect search command rules =
      matchingMessages search command rules := by
  induction rules with
  | nil => rfl
  | cons r rest ih =>
      obtain ⟨p, m⟩ := r
      by_cases hp : search p command = true
      · simp [validate_command_effect, matchingMessages, List.filter_cons, hp] at ih ⊢
        exact ih
      · rw [Bool.not_eq_true] at hp
        simp [validate_command_effect, matchingMessages, List.filter_cons, hp] at ih ⊢
        exact ih

/-- The issue list is empty exactly when no rule's pattern matches. -/
lemma vce_isEmpty (search : SearchFn) (command : String)
    (rules : List (String × String)) :
    (validate_command_effect search command rules).isEmpty =
      !(rules.any fun r => search r.1 command) := by
  induction rules with
  | nil => rfl
  | cons r rest ih =>
      obtain ⟨p, m⟩ := r
      by_cases hp : search p command = true
      · simp [validate_command_effect, List.any_cons, hp]
      · rw [Bool.not_eq_true] at hp
        simp [validate_command_effect, List.any_cons, hp, ih]

/-- A match relation that matches nothing (used to instantiate witnesses). -/
def searchNone : SearchFn := fun _ _ => false

/-- C9: for every command string and rule list, `validate_command_effect`
returns exactly the messages of the rules whose pattern matches the command,
in rule order, and in particular the empty list when no pattern matches. -/
theorem validate_command_effect_exact (search : SearchFn) (command : String)
    (rules : List (String × String)) :
    validate_command_effect search command rules =
      matchingMessages search command rules
    ∧ ((∀ r ∈ rules, search r.1 command = false) →
        validate_command_effect search command rules = []) := by
  refine ⟨vce_eq_matching search command rules, fun hall => ?_⟩
  rw [vce_eq_matching search command rules, matchingMessages]
  rw [List.filter_eq_nil_iff.mpr ?_, List.map_nil]
  intro r hr
  simp [hall r hr]

/-- Witness for C9 at a concrete command and the program's rule list. -/
theorem validate_command_effect_exact_witness :
    validate_command_effect searchNone "ls -la" validation_rules =
      matchingMessages searchNone "ls -la" validation_rules
    ∧ validate_command_effect searchNone "ls -la" validation_rules = [] :=
  ⟨(validate_command_effect_exact searchNone "ls -la" validation_rules).1,
   (validate_command_effect_exact searchNone "ls -la" validation_rules).2
     (fun _ _ => rfl)⟩

/-- A hook input whose tool is `Edit` (a non-Bash tool), for witnesses. -/
def editInput : HookInput := { tool_name := some "Edit" }

/-- C2: the runtime runs the pipeline's steps strictly in declaration order
(a step's trace precedes the remaining steps' traces) and halts at the first
step whose run ends in `Stop` or `Complete`, interpreting no effect of any
later step; in particular, for a hook input naming a non-Bash tool,
`extract_tool_data_saga` ends the run with its `Complete` message, no `Call`
effect is ever interpreted, and `issues` keeps its initial empty value. -/
theorem pipeline_order_and_halt :
    (∀ exec s p ps s' t r, runProg exec s p = (s', t, Outcome.stopped r) →
      runSteps exec s (p :: ps) = (s', t, Outcome.stopped r))
    ∧ (∀ exec s p ps s' t m, runProg exec s p = (s', t, Outcome.completed m) →
      runSteps exec s (p :: ps) = (s', t, Outcome.completed m))
    ∧ (∀ exec s p ps s' t, runProg exec s p = (s', t, Outcome.finished) →
      runSteps exec s (p :: ps) =
        ((runSteps exec s' ps).1, t ++ (runSteps exec s' ps).2.1,
         (runSteps exec s' ps).2.2))
    ∧ (∀ (search : SearchFn) (h : HookInput), h.isEmpty = false →
        h.tool_name.getD "" ≠ "Bash" →
        (runMain search (.valid h)).2.2 =
          Outcome.completed "Not a Bash command - skipping validation"
        ∧ (runMain search (.valid h)).1.issues = some []
        ∧ ∀ c rules, Item.call c rules ∉ (runMain search (.valid h)).2.1) := by
  refine ⟨?_, ?_, ?_, ?_⟩
  · intro exec s p ps s' t r hp
    simp [runSteps, hp]
  · intro exec s p ps s' t m hp
    simp [runSteps, hp]
  · intro exec s p ps s' t hp
    simp [runSteps, hp]
  · intro search h h1 h2
    obtain ⟨he, tn, ti⟩ := h
    simp only at h1 h2
    subst h1
    refine ⟨?_, ?_, ?_⟩ <;>
      simp [runMain, main_saga, initState, runSteps, runProg,
        validate_input_saga, parse_json_saga, setup_validation_rules_saga,
        extract_tool_data_saga, inputFalsy, h2]

/-- Witness for C2: the order/halt conjuncts at a concrete stopping step,
and the non-Bash short-circuit at a concrete `Edit` input. -/
theorem pipeline_order_and_halt_witness :
    runSteps failExec (initState .empty) [.stop "x" .done, .done] =
      ({ initState .empty with continue_ := false, stopReason := "x" },
       [Item.stop "x"], Outcome.stopped "x")
    ∧ (runMain searchNone (.valid editInput)).2.2 =
        Outcome.completed "Not a Bash command - skipping validation"
    ∧ (runMain searchNone (.valid editInput)).1.issues = some []
    ∧ ∀ c rules, Item.call c rules ∉ (runMain searchNone (.valid editInput)).2.1 := by
  have h4 := pipeline_order_and_halt.2.2.2 searchNone editInput rfl (by decide)
  exact ⟨pipeline_order_and_halt.1 failExec (initState .empty) (.stop "x" .done)
      [.done] _ _ "x" rfl, h4.1, h4.2.1, h4.2.2⟩

/-- The command string extracted by `extract_tool_data_saga`:
`input_data.get("tool_input", {}).get("command", "")`. -/
def hookCommand (h : HookInput) : String := ((h.tool_input.getD {}).command).getD ""

/-- Running the `Log` loop only prepends log items to the trace. -/
lemma runProg_logIssues
    (exec : String → List (String × String) → Except String (List String))
    (s : ValidatorState) (l : List String) (k : Prog) :
    runProg exec s (logIssues l k) =
      ((runProg exec s k).1,
       l.map (fun m => Item.log "error" ("â€¢ " ++ m)) ++ (runProg exec s k).2.1,
       (runProg exec s k).2.2) := by
  induction l with
  | nil => simp [logIssues]
  | cons m ms ih => simp [logIssues, runProg, ih]

/-- On the Bash path with a non-empty command, the final continuation flag is
the emptiness of the computed issue list, and `issues` holds exactly the
result of `validate_command_effect`. -/
lemma main_run_bash (search : SearchFn) (ti : Option ToolInput)
    (h3 : ((ti.getD {}).command).getD "" ≠ "") :
    (runMain search (.valid ⟨false, some "Bash", ti⟩)).1.continue_ =
      (validate_command_effect search (((ti.getD {}).command).getD "")
        validation_rules).isEmpty
    ∧ (runMain search (.valid ⟨false, some "Bash", ti⟩)).1.issues =
      some (validate_command_effect search (((ti.getD {}).command).getD "")
        validation_rules) := by
  cases hE : validate_command_effect search (((ti.getD {}).command).getD "")
      validation_rules with
  | nil =>
      constructor <;>
        simp [runMain, main_saga, initState, runSteps, runProg,
          validate_input_saga, parse_json_saga, setup_validation_rules_saga,
          extract_tool_data_saga, validate_command_saga, output_results_saga,
          inputFalsy, truthy, realExec, h3, hE]
  | cons a as =>
      constructor <;>
        simp [runMain, main_saga, initState, runSteps, runProg,
          validate_input_saga, parse_json_saga, setup_validation_rules_saga,
          extract_tool_data_saga, validate_command_saga, output_results_saga,
          inputFalsy, truthy, realExec, runProg_logIssues, h3, hE]

/-- A hook input invoking Bash with the innocuous command `ls`. -/
def bashLsInput : HookInput :=
  { tool_name := some "Bash", tool_input := some { command := some "ls" } }

/-- C1: for every valid JSON hook input naming tool `Bash` with a non-empty
command, `main` exits with code 2 exactly when at least one validation
rule's pattern matches the command, and with code 0 otherwise; the exit code
is 0 exactly when the final state's continuation flag is true.  (`SagaRuntime`
and the two input sagas are modelled from the spec; the match relation
`search` stands for `re.search`.) -/
theorem bash_exit_code_spec (search : SearchFn) (h : HookInput)
    (h1 : h.isEmpty = false) (h2 : h.tool_name = some "Bash")
    (h3 : hookCommand h ≠ "") :
    (exitCode search (.valid h) = 2 ↔
      ∃ r ∈ validation_rules, search r.1 (hookCommand h) = true)
    ∧ (exitCode search (.valid h) = 0 ↔
      ¬ ∃ r ∈ validation_rules, search r.1 (hookCommand h) = true)
    ∧ (exitCode search (.valid h) = 0 ↔
      (runMain search (.valid h)).1.continue_ = true) := by
  obtain ⟨he, tn, ti⟩ := h
  simp only at h1 h2
  subst h1
  subst h2
  have hm := main_run_bash search ti h3
  have hcont : (runMain search (.valid ⟨false, some "Bash", ti⟩)).1.continue_
      = !(validation_rules.any fun r =>
          search r.1 (hookCommand ⟨false, some "Bash", ti⟩)) := by
    rw [hm.1, vce_isEmpty]
    rfl
  cases hA : (validation_rules.any fun r =>
      search r.1 (hookCommand ⟨false, some "Bash", ti⟩)) with
  | false =>
      rw [hA, Bool.not_false] at hcont
      have hexit : exitCode search (.valid ⟨false, some "Bash", ti⟩) = 0 := by
        simp [exitCode, hcont]
      rw [List.any_eq_false] at hA
      refine ⟨?_, ?_, ?_⟩
      · rw [hexit]
        constructor
        · intro h02
          exact absurd h02 (by decide)
        · rintro ⟨r, hr, hsr⟩
          exact absurd hsr (hA r hr)
      · rw [hexit]
        constructor
        · rintro - ⟨r, hr, hsr⟩
          exact absurd hsr (hA r hr)
        · intro _
          rfl
      · rw [hexit, hcont]
        exact ⟨fun _ => rfl, fun _ => rfl⟩
  | true =>
      rw [hA, Bool.not_true] at hcont
      have hexit : exitCode search (.valid ⟨false, some "Bash", ti⟩) = 2 := by
        simp [exitCode, hcont]
      rw [List.any_eq_true] at hA
      refine ⟨?_, ?_, ?_⟩
      · rw [hexit]
        exact ⟨fun _ => hA, fun _ => rfl⟩
      · rw [hexit]
        constructor
        · intro h20
          exact absurd h20 (by decide)
        · intro hnA
          exact absurd hA hnA
      · rw [hexit, hcont]
        constructor
        · intro h20
          exact absurd h20 (by decide)
        · intro hct
          exact absurd hct (by decide)

/-- Witness for C1: under a match relation matching nothing, `Bash ls` is
allowed with exit code 0 and a true continuation flag. -/
theorem bash_exit_code_spec_witness :
    exitCode searchNone (.valid bashLsInput) = 0
    ∧ (runMain searchNone (.valid bashLsInput)).1.continue_ = true := by
  have h := bash_exit_code_spec searchNone bashLsInput rfl rfl (by decide)
  have hno : ¬ ∃ r ∈ validation_rules,
      searchNone r.1 (hookCommand bashLsInput) = true := by decide
  exact ⟨h.2.1.mpr hno, h.2.2.mp (h.2.1.mpr hno)⟩

/-- An underlying operation that always raises (for the C8 witness). -/
def failExec : String → List (String × String) → Except String (List String) :=
  fun _ _ => .error "boom"

/-- C8: if the operation underlying a `Call` effect raises, the runtime
catches it, records an error log, and resumes the yielding step with an
absent result (`none`); the run of the pipeline continues from the step's
continuation, so the exception never propagates into the pipeline.  (The
runtime is modelled from the spec, `SagaRuntime` not being under `src/`;
the spec's further demand that steps treat `none` as failure is a contract
on step authors, not a runtime behaviour.) -/
theorem call_failure_contained
    (exec : String → List (String × String) → Except String (List String))
    (s : ValidatorState) (c : String) (rules : List (String × String))
    (k : Option (List String) → Prog) (e : String)
    (h : exec c rules = .error e) :
    runProg exec s (.call c rules k) =
      ((runProg exec s (k none)).1,
       .call c rules :: .log "error" e :: (runProg exec s (k none)).2.1,
       (runProg exec s (k none)).2.2) := by
  simp [runProg, h]

/-- Witness for C8: a concrete raising operation inside a concrete step. -/
theorem call_failure_contained_witness :
    runProg failExec (initState .empty) (.call "c" [] fun _ => .done) =
      (initState .empty, [.call "c" [], .log "error" "boom"], .finished) := by
  rw [call_failure_contained failExec (initState .empty) "c" []
    (fun _ => .done) "boom" rfl]
  rfl

end CommandValidator

namespace ClaudeWorktree

/-- A world with no worktree for the session yet. -/
def absentWorld : GitWorld := { headCommit := "c0" }

/-- A world whose live worktree list already shows the session's worktree,
with a clean worktree. -/
def presentCleanWorld : GitWorld :=
  { worktreeList := ["/repo/repo-claude-s1 c0 [claude/s1]"], headCommit := "c0" }

/-- Like `presentCleanWorld` but with uncommitted changes in the worktree. -/
def presentDirtyWorld : GitWorld :=
  { worktreeList := ["/repo/repo-claude-s1 c0 [claude/s1]"], headCommit := "c0",
    wtDirty := true }

/-- Whether an external call writes the session record file. -/
def isSessionWrite : GitCmd → Bool
  | .writeSessionFile _ => true
  | _ => false

/-- C3: the worktree path is one fixed function of the working directory and
the conversation id, so two invocations compute the same path; a first run in
a world without the worktree creates it at that path, a second run in a world
whose live worktree list contains it issues no creation command, and in any
world the creation decision is exactly the failure of the live-list lookup —
never cached state. -/
theorem worktree_ensure_idempotent (cid cwd : String) (w₁ w₂ : GitWorld)
    (hr₁ : w₁.isRepo = true) (hr₂ : w₂.isRepo = true)
    (habs : worktreeExists (sessionWorktreePath cwd cid) w₁.worktreeList = false)
    (hpres : worktreeExists (sessionWorktreePath cwd cid) w₂.worktreeList = true) :
    GitCmd.worktree
        ["add", sessionWorktreePath cwd cid, "-b", "claude/" ++ cid, w₁.headCommit]
      ∈ (main (.valid (some cid)) cwd w₁).1
    ∧ (∀ args, GitCmd.worktree args ∈ (main (.valid (some cid)) cwd w₂).1 →
        args = ["list"])
    ∧ (∀ w : GitWorld, w.isRepo = true →
        ((∃ args, GitCmd.worktree args ∈ (main (.valid (some cid)) cwd w).1
            ∧ args.head? = some "add")
          ↔ worktreeExists (sessionWorktreePath cwd cid) w.worktreeList = false)) := by
  refine ⟨?_, ?_, ?_⟩
  · simp [main, hr₁, habs]
  · intro args hmem
    cases hd : w₂.wtDirty || w₂.wtUntracked <;>
      simp [main, hr₂, hpres, hd] at hmem <;> exact hmem
  · intro w hw
    constructor
    · rintro ⟨args, hmem, hhead⟩
      by_contra hne
      rw [Bool.not_eq_false] at hne
      cases hd : w.wtDirty || w.wtUntracked <;>
        simp [main, hw, hne, hd] at hmem <;>
        · subst hmem
          simp at hhead
    · intro hne
      refine ⟨["add", sessionWorktreePath cwd cid, "-b", "claude/" ++ cid,
        w.headCommit], ?_, rfl⟩
      simp [main, hw, hne]

/-- Witness for C3 at the concrete session `s1` in `/repo`: the first world
has no worktree, the second world's live list shows it. -/
theorem worktree_ensure_idempotent_witness :
    GitCmd.worktree ["add", "/repo/repo-claude-s1", "-b", "claude/s1", "c0"]
      ∈ (main (.valid (some "s1")) "/repo" absentWorld).1
    ∧ (∀ args,
        GitCmd.worktree args ∈ (main (.valid (some "s1")) "/repo" presentCleanWorld).1 →
        args = ["list"]) := by
  have h := worktree_ensure_idempotent "s1" "/repo" absentWorld presentCleanWorld
    rfl rfl rfl (by decide)
  exact ⟨h.1, h.2.1⟩

/-- C4 counterexample: at the concrete input `{"conversation_id": "s1"}` in
`/repo` with no existing worktree, the only `git worktree add` invocation is
`add <path> -b claude/s1 <commit>`: it carries no `-d`/`--detach` flag and
creates a new attached branch, so the worktree is not created detached. -/
theorem worktree_add_not_detached_cex :
    (main (.valid (some "s1")) "/repo" absentWorld).1 =
      [GitCmd.worktree ["list"],
       GitCmd.worktree ["add", "/repo/repo-claude-s1", "-b", "claude/s1", "c0"]]
    ∧ ∀ args, GitCmd.worktree args ∈ (main (.valid (some "s1")) "/repo" absentWorld).1 →
        "-d" ∉ args ∧ "--detach" ∉ args ∧ ("-b" ∈ args ∨ args = ["list"]) := by
  have htr : (main (.valid (some "s1")) "/repo" absentWorld).1 =
      [GitCmd.worktree ["list"],
       GitCmd.worktree ["add", "/repo/repo-claude-s1", "-b", "claude/s1", "c0"]] := rfl
  refine ⟨htr, ?_⟩
  intro args hmem
  rw [htr] at hmem
  simp only [List.mem_cons, List.not_mem_nil, or_false, GitCmd.worktree.injEq] at hmem
  rcases hmem with h | h <;> subst h <;> decide

/-- C4 amended: when no worktree exists for the session, the program creates
a worktree at the current commit of the primary repository, checked out on
the new branch `claude/{conversation_id}` (not detached). -/
theorem worktree_created_on_branch (cid cwd : String) (w : GitWorld)
    (hr : w.isRepo = true)
    (habs : worktreeExists (sessionWorktreePath cwd cid) w.worktreeList = false) :
    (main (.valid (some cid)) cwd w).1 =
      [GitCmd.worktree ["list"],
       GitCmd.worktree
         ["add", sessionWorktreePath cwd cid, "-b", "claude/" ++ cid, w.headCommit]] := by
  simp [main, hr, habs]

/-- Witness for the amended C4 at the concrete session `s1` in `/repo`. -/
theorem worktree_created_on_branch_witness :
    (main (.valid (some "s1")) "/repo" absentWorld).1 =
      [GitCmd.worktree ["list"],
       GitCmd.worktree ["add", sessionWorktreePath "/repo" "s1", "-b",
         "claude/" ++ "s1", absentWorld.headCommit]] :=
  worktree_created_on_branch "s1" "/repo" absentWorld rfl rfl

/-- C5: on the creation path the program never persists a session record —
`session_file` is referenced without ever being defined, so after creating
the worktree the run dies with a `NameError` and no write is issued (and the
record it attempts to build has no commit hash or timestamp fields). -/
theorem session_record_never_written :
    (main (.valid (some "s1")) "/repo" absentWorld).2 =
      WtResult.crashed "NameError: name 'session_file' is not defined"
    ∧ ∀ c ∈ (main (.valid (some "s1")) "/repo" absentWorld).1,
        isSessionWrite c = false := by
  exact ⟨rfl, by decide⟩

/-- C6 counterexample: with valid JSON input that lacks `conversation_id`,
the program does not stop with an input error — it proceeds through the
pipeline with the substitute id `default`, querying the worktree list and
creating `/repo/repo-claude-default` on branch `claude/default`. -/
theorem missing_conversation_id_proceeds_cex :
    (main (.valid none) "/repo" absentWorld).1 =
      [GitCmd.worktree ["list"],
       GitCmd.worktree ["add", "/repo/repo-claude-default", "-b", "claude/default", "c0"]]
    ∧ (main (.valid none) "/repo" absentWorld).1 ≠ [] := by
  exact ⟨rfl, by decide⟩

/-- C6 amended: a missing `conversation_id` is not treated as an input
error; the program substitutes `"default"` and behaves exactly as if the
input had carried `conversation_id = "default"`. -/
theorem missing_conversation_id_defaults :
    ∀ (cwd : String) (w : GitWorld),
      main (.valid none) cwd w = main (.valid (some "default")) cwd w := by
  intro cwd w
  rfl

/-- Whether a printed JSON object carries any boolean-valued field. -/
def hasBoolField (obj : List (String × JVal)) : Bool :=
  obj.any fun kv =>
    match kv.2 with
    | .bool _ => true
    | .str _ => false

/-- C7 counterexample: on a successful run the program prints only
`{"decision": "approve"}`, which contains no boolean continuation flag and
no system message, and on malformed input it raises and prints no JSON
object at all. -/
theorem approve_output_lacks_flag_cex :
    (main (.valid (some "s1")) "/repo" presentCleanWorld).2 =
      WtResult.printed approveJson
    ∧ hasBoolField approveJson = false
    ∧ main .invalidJson "/repo" presentCleanWorld =
        ([], WtResult.crashed "json.decoder.JSONDecodeError") := by
  exact ⟨by decide, rfl, rfl⟩

/-- C7 amended: every run of `claude-worktree.py` either prints exactly one
JSON object — always `{"decision": "approve"}`, with no continuation flag or
system message — or raises an uncaught exception and prints nothing. -/
theorem output_shape :
    ∀ (stdin : WtStdin) (cwd : String) (w : GitWorld),
      (main stdin cwd w).2 = WtResult.printed approveJson
      ∨ ∃ m, (main stdin cwd w).2 = WtResult.crashed m := by
  intro stdin cwd w
  cases stdin with
  | invalidJson => exact Or.inr ⟨_, rfl⟩
  | valid cid =>
      simp only [main]
      split
      · exact Or.inr ⟨_, rfl⟩
      · split
        · exact Or.inr ⟨_, rfl⟩
        · split
          · exact Or.inl rfl
          · exact Or.inl rfl

/-- C10: when the session's worktree already exists, a dirty or untracked
worktree is staged wholesale (`add -A`) and committed exactly once with the
auto-commit message before the approve response; a clean worktree triggers
no mutating command at all — the only external call is the read-only
worktree-list query — before the approve response is printed. -/
theorem existing_worktree_autocommit (cid cwd : String) (w : GitWorld)
    (hr : w.isRepo = true)
    (hex : worktreeExists (sessionWorktreePath cwd cid) w.worktreeList = true) :
    ((w.wtDirty || w.wtUntracked) = true →
      main (.valid (some cid)) cwd w =
        ([GitCmd.worktree ["list"], GitCmd.add ["-A"],
          GitCmd.indexCommit autoCommitMsg],
         WtResult.printed approveJson))
    ∧ ((w.wtDirty || w.wtUntracked) = false →
      main (.valid (some cid)) cwd w =
        ([GitCmd.worktree ["list"]], WtResult.printed approveJson)) := by
  constructor <;> intro hd <;> simp [main, hr, hex, hd]

/-- Witness for C10: the concrete dirty world commits once with the message;
the concrete clean world only queries the list. -/
theorem existing_worktree_autocommit_witness :
    main (.valid (some "s1")) "/repo" presentDirtyWorld =
      ([GitCmd.worktree ["list"], GitCmd.add ["-A"],
        GitCmd.indexCommit autoCommitMsg],
       WtResult.printed approveJson)
    ∧ main (.valid (some "s1")) "/repo" presentCleanWorld =
      ([GitCmd.worktree ["list"]], WtResult.printed approveJson) :=
  ⟨(existing_worktree_autocommit "s1" "/repo" presentDirtyWorld rfl (by decide)).1 rfl,
   (existing_worktree_autocommit "s1" "/repo" presentCleanWorld rfl (by decide)).2 rfl⟩

end ClaudeWorktree
